import Mathlib

/-!
Verification development for the rendercv configuration-resolution,
validation-error-normalization and render-orchestration subsystem.

The Lean definitions below are shallow embeddings of the Python functions in
`src/rendercv/cli/utilities.py` and `src/rendercv/data/models/design.py`.
Python dictionaries are modelled as insertion-ordered association lists with
Python's update semantics (replace the first binding of an existing key,
append a new key at the end), Python lists as Lean lists, and raised
exceptions as explicit error values.
-/

namespace RenderCV

/-- Configuration-tree values: Python scalars, dicts and lists as they occur
in the YAML-derived input mapping. -/
inductive Val where
  | vstr (s : String)
  | vint (n : Int)
  | vbool (b : Bool)
  | vnone
  | vdict (m : List (String × Val))
  | vlist (xs : List Val)

/-- Categories of Python exceptions raised by the embedded code. -/
inductive PyErr where
  | valueError
  | indexError
  | typeError
  | evalError
  deriving DecidableEq

/-- Python dict lookup `m[k]` (first binding of `k`), `none` when absent. -/
def dictLookup (m : List (String × Val)) (k : String) : Option Val :=
  match m with
  | [] => none
  | (k', v) :: r => if k' = k then some v else dictLookup r k

/-- Python dict assignment `m[k] = v`: replace the first binding of an
existing key in place, otherwise append the new binding at the end. -/
def dictSet (m : List (String × Val)) (k : String) (v : Val) :
    List (String × Val) :=
  match m with
  | [] => [(k, v)]
  | (k', v') :: r => if k' = k then (k, v) :: r else (k', v') :: dictSet r k v

/-- `sub` occurs as a contiguous substring of `hay` (Python `sub in hay`). -/
def strContains (hay sub : String) : Bool :=
  hay.toList.tails.any (fun t => sub.toList.isPrefixOf t)

/-- Python `s.startswith(pre)`. -/
def pyStartsWith (s pre : String) : Bool :=
  pre.toList.isPrefixOf s.toList

/-- Python `s.endswith(suf)`. -/
def pyEndsWith (s suf : String) : Bool :=
  suf.toList.isSuffixOf s.toList

/-- Python `s.split(".")`: cut at every dot; `""` yields `[""]`, adjacent
dots yield empty segments. -/
def splitDotChars : List Char → List (List Char)
  | [] => [[]]
  | c :: cs =>
    if c = '.' then [] :: splitDotChars cs
    else
      match splitDotChars cs with
      | g :: gs => (c :: g) :: gs
      | [] => [[c]]

/-- Python `key.split(".")` on strings. -/
def splitDots (s : String) : List String :=
  (splitDotChars s.toList).map (fun g => ⟨g⟩)

/-- Python `int(s)`: strip surrounding whitespace, optional sign, decimal
digits.  (Digit-group underscores are not modelled; no caller uses them.) -/
def pyToInt (s : String) : Option Int :=
  let t := (s.toList.dropWhile Char.isWhitespace).reverse.dropWhile
    Char.isWhitespace |>.reverse
  let core : Int × List Char :=
    match t with
    | '+' :: cs => (1, cs)
    | '-' :: cs => (-1, cs)
    | cs => (1, cs)
  match core with
  | (sign, digits) =>
    if digits.isEmpty || !digits.all Char.isDigit then none
    else some (sign * (digits.foldl (fun n c => n * 10 + (c.toNat - '0'.toNat) : Nat → Char → Nat) 0 : Nat))

/-- Resolve a Python sequence index (negative indices count from the end);
`none` when the index is out of range (Python raises `IndexError`). -/
def pyIndex (i : Int) (len : Nat) : Option Nat :=
  if 0 ≤ i then
    if i < (len : Int) then some i.toNat else none
  else
    if 0 ≤ i + (len : Int) then some (i + (len : Int)).toNat else none

/-- The value-decoding prologue of `set_or_update_a_value` (utilities.py
lines 50-55): a brace- or bracket-delimited string is passed to Python
`eval`, anything else is kept as a string.  `evalFn` stands for Python
`eval`; `none` models `eval` raising. -/
def decodeValue (evalFn : String → Option Val) (value : String) :
    Except PyErr Val :=
  if pyStartsWith value "\x7b" && pyEndsWith value "\x7d" then
    match evalFn value with
    | some v => .ok v
    | none => .error .evalError
  else if pyStartsWith value "[" && pyEndsWith value "]" then
    match evalFn value with
    | some v => .ok v
    | none => .error .evalError
  else
    .ok (.vstr value)

/-- Core recursion of `set_or_update_a_value` (utilities.py lines 26-80),
on the already-split key segments `k :: rest`, operating on the current
container `v`.  The returned pair is the state of `v` after the call
(Python mutates containers in place, so on an exception the caller still
sees any mutations made before the raise) together with the propagated
exception, `none` meaning normal return. -/
def setOrUpdate (evalFn : String → Option Val) :
    Val → String → List String → String → Val × Option PyErr
  | v, k, [], value =>
    -- leaf: decode the value, then assign into the container
    match decodeValue evalFn value with
    | .error e => (v, some e)
    | .ok dv =>
      match v with
      | .vlist xs =>
        match pyToInt k with
        | none => (v, some .valueError)
        | some i =>
          match pyIndex i xs.length with
          | none => (v, some .indexError)
          | some j => (.vlist (xs.set j dv), none)
      | .vdict m => (.vdict (dictSet m k dv), none)
      | _ => (v, some .typeError)
  | v, k, k2 :: rest, value =>
    match v with
    | .vlist xs =>
      match pyToInt k with
      | none => (v, some .valueError)
      | some i =>
        match pyIndex i xs.length with
        | none => (v, some .indexError)
        | some j =>
          -- descend into the existing element; in-place mutations of the
          -- element persist whether or not the recursion raises
          match setOrUpdate evalFn (xs.getD j .vnone) k2 rest value with
          | (sub', e) => (.vlist (xs.set j sub'), e)
    | .vdict m =>
      match dictLookup m k with
      | some sub =>
        match setOrUpdate evalFn sub k2 rest value with
        | (sub', e) => (.vdict (dictSet m k sub'), e)
      | none =>
        -- key absent: recurse into a fresh empty dict, attach only on return
        match setOrUpdate evalFn (.vdict []) k2 rest value with
        | (sub', e) =>
          match e with
          | some err => (v, some err)
          | none => (.vdict (dictSet m k sub'), none)
    | .vstr s =>
      -- Python `first_key in updated_dict` on a string is a substring test;
      -- both branches end in a TypeError (string indexing / item assignment)
      if strContains s k then (v, some .typeError)
      else
        match setOrUpdate evalFn (.vdict []) k2 rest value with
        | (_, e) =>
          match e with
          | some err => (v, some err)
          | none => (v, some .typeError)
    | _ => (v, some .typeError)

/-- `set_or_update_a_value(dictionary, key, value)`: split the dotted key and
run the recursion.  (`splitDots` never returns `[]`, so the first match
arm is dead code.) -/
def setOrUpdateAValue (evalFn : String → Option Val) (dictionary : Val)
    (key : String) (value : String) : Val × Option PyErr :=
  match splitDots key with
  | [] => (dictionary, none)
  | k :: rest => setOrUpdate evalFn dictionary k rest value

/-! ## Validation-error normalization (`parse_validation_errors`) -/

/-- The Python value carried in a raw validation failure's `input` field.
Composite inputs (dicts / lists) are only ever tested with
`isinstance(input, dict | list)` and then replaced by `""`, so their
payloads are not modelled. -/
inductive PyVal where
  | pstr (s : String)
  | pint (n : Int)
  | pbool (b : Bool)
  | pnone
  | pdictV
  | plistV
  deriving DecidableEq

/-- Python `str(x)` for the non-composite values of `PyVal`.  (It is never
applied to a composite: those are replaced by `""` first.) -/
def pyStr : PyVal → String
  | .pstr s => s
  | .pint n => toString n
  | .pbool b => if b then "True" else "False"
  | .pnone => "None"
  | .pdictV => ""
  | .plistV => ""

/-- A raw validation failure after the cause-flattening step: location path
segments (already in string form), message and offending input. -/
structure ErrB where
  loc : List String
  msg : String
  input : PyVal
  deriving DecidableEq

/-- A raw validation failure as produced by the external validator.  `cause`
models the `ctx["error"].__cause__.errors()` chain of a polymorphic-entry
failure: `some cs` when the `ctx` key is present and the inner error carries
a cause with failures `cs`, `none` otherwise. -/
structure ErrR where
  loc : List String
  msg : String
  input : PyVal
  cause : Option (List ErrB)

/-- Forget the cause of a raw failure. -/
def ErrR.toB (e : ErrR) : ErrB := ⟨e.loc, e.msg, e.input⟩

/-- A normalized diagnostic: dot-joined cleaned location, user-facing
message, stringified input. -/
structure Diag where
  loc : String
  msg : String
  input : String
  deriving DecidableEq

/-- The sentinel message of a polymorphic-entry failure
(utilities.py line 237). -/
def entriesSentinel : String := "There are problems with the entries."

/-- Cause flattening (utilities.py lines 234-253): the loop iterates over a
copy of the original list and appends, for each failure whose message
contains the sentinel and which carries a cause, every cause failure with
its location rebased to `outer.loc ++ cause.loc[1:]`. -/
def flattenErrors (errors : List ErrR) : List ErrB :=
  errors.map ErrR.toB ++
    errors.flatMap (fun e =>
      match e.cause with
      | some cs =>
        if strContains e.msg entriesSentinel then
          cs.map (fun c => { c with loc := e.loc ++ c.loc.drop 1 })
        else []
      | none => [])

/-- Internal location markers stripped from error locations
(utilities.py line 258). -/
def unwantedLocations : List String :=
  ["tagged-union", "list", "literal", "int", "constrained-str"]

/-- Python `list.remove(x)`: delete the first element equal to `x`; raises
`ValueError` (here `none`) when no element is equal. -/
def pyListRemove (l : List String) (x : String) : Option (List String) :=
  match l with
  | [] => none
  | a :: r => if a = x then some r else (pyListRemove r x).map (a :: ·)

/-- Location cleaning for one failure (utilities.py lines 259-266): for every
segment of the original location and every marker contained in it, remove
that segment once from the working copy.  A segment containing two distinct
markers triggers a second `remove` of an already-removed value, which raises
(`none`). -/
def cleanLoc (location : List String) : Option (List String) :=
  location.foldl
    (fun acc elem =>
      unwantedLocations.foldl
        (fun acc' marker =>
          if strContains elem marker then
            acc'.bind (fun l => pyListRemove l elem)
          else acc')
        acc)
    (some location)

/-- Clean the locations of all failures in order; the first raise aborts the
whole function. -/
def cleanAll (errors : List ErrB) : Option (List ErrB) :=
  errors.mapM (fun e => (cleanLoc e.loc).map (fun l => { e with loc := l }))

/-! ### The custom-error extraction pattern

`get_error_message_and_location_and_value_from_a_custom_error` searches the
message for the regex `\(['"](.*)['"], '(.*)', '(.*)'\)` (utilities.py
line 172).  The matcher below implements exactly this pattern with
`re.search` semantics: leftmost starting position, each `(.*)` greedy with
backtracking, `.` not matching a newline, trailing text ignored. -/

/-- `(pre, suf)` decompositions of `l`, longest prefix first (the greedy
order in which a `(.*)` group tries candidate matches). -/
def splitsDesc (l : List Char) : List (List Char × List Char) :=
  (List.range (l.length + 1)).reverse.map (fun n => (l.take n, l.drop n))

/-- A `(.*)` group may not cross a newline. -/
def noNewline (cs : List Char) : Bool := cs.all (· ≠ '\n')

/-- The character class `['"]`. -/
def isQuote (c : Char) : Bool := c = '\'' || c = '"'

/-- Match the custom-error pattern anchored at the head of `cs`. -/
def matchCustomAt (cs : List Char) : Option (String × String × String) :=
  match cs with
  | '(' :: q :: rest =>
    if isQuote q then
      (splitsDesc rest).findSome? (fun p =>
        match p with
        | (g1, s1) =>
          if noNewline g1 then
            match s1 with
            | q2 :: s2 =>
              if isQuote q2 && ", '".toList.isPrefixOf s2 then
                (splitsDesc (s2.drop 3)).findSome? (fun p2 =>
                  match p2 with
                  | (g2, s4) =>
                    if noNewline g2 && "', '".toList.isPrefixOf s4 then
                      (splitsDesc (s4.drop 4)).findSome? (fun p3 =>
                        match p3 with
                        | (g3, s6) =>
                          if noNewline g3 && "')".toList.isPrefixOf s6 then
                            some (⟨g1⟩, ⟨g2⟩, ⟨g3⟩)
                          else none)
                    else none)
              else none
            | [] => none
          else none)
    else none
  | _ => none

/-- `get_error_message_and_location_and_value_from_a_custom_error`
(utilities.py lines 152-176): `re.search` over the message; `none` models
the `(None, None, None)` result. -/
def extractCustomError (s : String) : Option (String × String × String) :=
  s.toList.tails.findSome? matchCustomAt

/-- The table converting known technical messages into friendly ones
(utilities.py lines 198-227). -/
def errorDictionary : List (String × String) :=
  [("Input should be 'present'",
    "This is not a valid date! Please use either YYYY-MM-DD, YYYY-MM, or YYYY format or \"present\"!"),
   ("Input should be a valid integer, unable to parse string as an integer",
    "This is not a valid date! Please use either YYYY-MM-DD, YYYY-MM, or YYYY format!"),
   ("String should match pattern '\\d{4}-\\d{2}(-\\d{2})?'",
    "This is not a valid date! Please use either YYYY-MM-DD, YYYY-MM, or YYYY format!"),
   ("String should match pattern '\\b10\\..*'",
    "A DOI prefix should always start with \"10.\". For example, \"10.1109/TASC.2023.3340648\"."),
   ("URL scheme should be 'http' or 'https'", "This is not a valid URL!"),
   ("Field required", "This field is required!"),
   ("value is not a valid phone number", "This is not a valid phone number!"),
   ("month must be in 1..12", "The month must be between 1 and 12!"),
   ("day is out of range for month", "The day is out of range for the month!"),
   ("Extra inputs are not permitted",
    "This field is unknown for this object! Please remove it."),
   ("Input should be a valid string", "This field should be a string!"),
   ("Input should be a valid list",
    "This field should contain a list of items but it doesn't!")]

/-- Substrings deleted from every message (utilities.py line 229). -/
def unwantedTexts : List String :=
  ["value is not a valid email address: ", "Value error, "]

/-- Exact-match lookup in the friendly-message table. -/
def lookupMessage (m : List (String × String)) (k : String) : Option String :=
  match m with
  | [] => none
  | (k', v) :: r => if k' = k then some v else lookupMessage r k

/-- Python `s.replace(sub, repl)` for a nonempty `sub`: non-overlapping
left-to-right replacement of every occurrence.  The scan consumes at least
one character per step, so `fuel` equal to the subject length makes the
fuel-exhausted arm unreachable (it exists only to keep the recursion
structural). -/
def pyReplaceChars (sub repl : List Char) : Nat → List Char → List Char
  | _, [] => []
  | 0, l => l
  | fuel + 1, c :: cs =>
    if !sub.isEmpty && sub.isPrefixOf (c :: cs) then
      -- skip the matched occurrence: `(c :: cs).drop sub.length`
      repl ++ pyReplaceChars sub repl fuel (cs.drop (sub.length - 1))
    else
      c :: pyReplaceChars sub repl fuel cs

/-- Python `s.replace(sub, repl)` on strings (nonempty `sub`; the empty
pattern, which Python treats specially, does not occur in the source). -/
def pyReplace (s sub repl : String) : String :=
  ⟨pyReplaceChars sub.toList repl.toList s.toList.length s.toList⟩

/-- The canonical end-date message (utilities.py lines 298-301). -/
def endDateMessage : String :=
  "This is not a valid end date! Please use either YYYY-MM-DD, YYYY-MM, or YYYY format or \"present\"!"

/-- The custom-error stage of the loop body (utilities.py lines 276-284):
message, location and input after a successful extraction replaced the
message and input and appended the non-empty custom location. -/
def diagAfterCustom (e : ErrB) : String × String × PyVal :=
  let location0 := String.intercalate "." e.loc
  match extractCustomError e.msg with
  | some (cm, cl, ci) =>
    (cm, if cl = "" then location0 else location0 ++ "." ++ cl, .pstr ci)
  | none => (e.msg, location0, e.input)

/-- The message-rewriting tail of the loop body (utilities.py lines
287-293): strip the unwanted substrings, then rewrite an exact match of the
friendly-message table. -/
def diagRewriteMsg (msg1 : String) : String :=
  let msg2 := unwantedTexts.foldl (fun m t => pyReplace m t "") msg1
  match lookupMessage errorDictionary msg2 with
  | some friendly => friendly
  | none => msg2

/-- Build the normalized diagnostic of one cleaned failure (the body of the
loop at utilities.py lines 270-312). -/
def buildDiag (e : ErrB) : Diag :=
  match diagAfterCustom e with
  | (msg1, location, input1) =>
    ⟨location,
     if strContains location "end_date" then endDateMessage
     else diagRewriteMsg msg1,
     match input1 with
     | .pdictV => ""
     | .plistV => ""
     | other => pyStr other⟩

/-- The dedup-append step (utilities.py lines 314-316). -/
def dedupAppend (acc : List Diag) (d : Diag) : List Diag :=
  if d ∈ acc then acc else acc ++ [d]

/-- `parse_validation_errors` (utilities.py lines 179-318): flatten causes,
clean locations (this step can raise, modelled by `none`), then build the
deduplicated diagnostic list. -/
def parseValidationErrors (errors : List ErrR) : Option (List Diag) :=
  (cleanAll (flattenErrors errors)).map
    (fun es => es.foldl (fun acc e => dedupAppend acc (buildDiag e)) [])

/-! ## Bold keywords (`make_given_keywords_bold_in_a_dictionary`)

The Python function (utilities.py lines 453-483) makes a *shallow* copy of
the dictionary and then loops `for keyword in keywords: for key, value in
dictionary.items()`.  String values are re-read from the original
dictionary on every keyword round; list values are shared between the copy
and the original and mutated in place, so their edits accumulate across
rounds.  The embedding therefore threads, for every key, the pair
(original binding after in-place mutations, binding in the new dictionary).
The `fuel` argument bounds the dict-nesting depth, which the transformation
never increases; the top-level wrapper passes the depth of the input, so
the fuel-exhausted branch is unreachable from it. -/

/-- Word characters of the regex `\b` boundary. -/
def isWordChar (c : Char) : Bool := c.isAlphanum || c = '_'

/-- A `\b` boundary holds before the keyword when the preceding character
(if any) is not a word character (keywords are plain words, so their first
and last characters are word characters). -/
def boundaryBefore : Option Char → Bool
  | none => true
  | some c => !isWordChar c

/-- A `\b` boundary holds after the keyword when the following character
(if any) is not a word character. -/
def boundaryAfter : List Char → Bool
  | [] => true
  | c :: _ => !isWordChar c

/-- `re.sub(rf"\b{keyword}\b", f"**{keyword}**", s)` for a keyword made of
word characters and free of regex metacharacters (every keyword the callers
pass), scanning left to right over the subject.  `fuel` equal to the
subject length keeps the recursion structural, as in `pyReplaceChars`. -/
def wholeWordSubChars (kw : List Char) : Nat → Option Char → List Char →
    List Char
  | _, _, [] => []
  | 0, _, l => l
  | fuel + 1, prev, c :: cs =>
    if !kw.isEmpty && boundaryBefore prev && kw.isPrefixOf (c :: cs)
        && boundaryAfter (cs.drop (kw.length - 1)) then
      -- replace the occurrence by `**kw**`, resume after it
      ('*' :: '*' :: kw) ++ '*' :: '*' ::
        wholeWordSubChars kw fuel kw.getLast? (cs.drop (kw.length - 1))
    else
      c :: wholeWordSubChars kw fuel (some c) cs

/-- `re.sub(rf"\b{keyword}\b", f"**{keyword}**", s)` on strings
(utilities.py line 470). -/
def wholeWordBold (kw : String) (s : String) : String :=
  ⟨wholeWordSubChars kw.toList s.toList.length none s.toList⟩

/-- The plain (non-whole-word) `str.replace` substitution used for string
items inside lists (utilities.py line 478). -/
def substrBold (kw : String) (s : String) : String :=
  pyReplace s kw ("**" ++ kw ++ "**")

/-- One fuel-indexed round of `make_given_keywords_bold_in_a_dictionary`.
For every key the state holds `(key, original binding, new binding)`; see
the section comment for why both sides are threaded.  Returns the pair
(new dictionary, original dictionary after in-place list mutations). -/
def makeBoldD : Nat → List (String × Val) → List String →
    (List (String × Val)) × (List (String × Val))
  | 0, d, _ => (d, d)
  | fuel + 1, d, kws =>
    let final := kws.foldl
      (fun (st : List (String × Val × Val)) kw =>
        st.map (fun e =>
          match e with
          | (k, o, n) =>
            match o with
            | .vstr s =>
              -- the string is re-read from the original dictionary, so
              -- earlier keywords' substitutions are overwritten
              (k, o, .vstr (wholeWordBold kw s))
            | .vdict sub =>
              -- recursion applies the full keyword list; the sub-dict's
              -- in-place mutations persist in the original
              match makeBoldD fuel sub kws with
              | (res, sub') => (k, .vdict sub', .vdict res)
            | .vlist xs =>
              -- the list object is shared between the original and the
              -- copy and mutated in place: edits accumulate
              let xs' := xs.map (fun it =>
                match it with
                | .vstr s => .vstr (substrBold kw s)
                | .vdict sub => .vdict (makeBoldD fuel sub kws).1
                | other => other)
              (k, .vlist xs', .vlist xs')
            | _ => (k, o, n)))
      (d.map (fun kv => (kv.1, kv.2, kv.2)))
    (final.map (fun e => (e.1, e.2.2)), final.map (fun e => (e.1, e.2.1)))

mutual

/-- Dict/list nesting depth of a value, the fuel bound for `makeBoldD`. -/
def valDepth : Val → Nat
  | .vdict m => 1 + valDepthD m
  | .vlist xs => 1 + valDepthL xs
  | _ => 0

/-- Nesting depth of the entries of a dict. -/
def valDepthD : List (String × Val) → Nat
  | [] => 0
  | (_, v) :: r => max (valDepth v) (valDepthD r)

/-- Nesting depth of the items of a list. -/
def valDepthL : List Val → Nat
  | [] => 0
  | x :: r => max (valDepth x) (valDepthL r)

end

/-- `make_given_keywords_bold_in_a_dictionary(dictionary, keywords)`
(utilities.py lines 453-483): run the rounds with enough fuel for the
dict-nesting depth of the input (which the transformation never deepens). -/
def makeGivenKeywordsBoldInADictionary (d : List (String × Val))
    (kws : List String) : List (String × Val) :=
  (makeBoldD (1 + valDepthD d) d kws).1

/-! ## Theme resolution (`validate_design_options`, design.py lines 29-163)

External collaborators are passed in through `ThemeWorld`: existence of the
custom theme folder and of each required file on disk, and the outcome of
dynamically loading the optional `__init__.py` plugin.  Plugin execution is
modelled as leaving the process working directory unchanged.  The design
argument is modelled as either an already-validated theme instance or a raw
mapping carrying its `theme` discriminator (the validator is only invoked
on mappings that have one). -/

/-- An ASCII letter or digit, the character class `[A-Za-z0-9]`. -/
def asciiAlnumChar (c : Char) : Bool :=
  ('0' ≤ c && c ≤ '9') || ('A' ≤ c && c ≤ 'Z') || ('a' ≤ c && c ≤ 'z')

/-- Python `str.isalnum` per character, for code points below `0x100`
(ASCII plus Latin-1: the Unicode alphanumerics there are the letters
`0xC0-0xFF` without `×`/`÷`, `ª µ º`, the superscripts `¹²³` and the
fractions `¼½¾`).  Code points `≥ 0x100` are treated as non-alphanumeric;
every string in this development is Latin-1. -/
def pyCharIsAlnum (c : Char) : Bool :=
  asciiAlnumChar c
    || (0xC0 ≤ c.toNat && c.toNat ≤ 0xFF && c.toNat ≠ 0xD7 && c.toNat ≠ 0xF7)
    || c.toNat = 0xAA || c.toNat = 0xB5 || c.toNat = 0xBA
    || c.toNat = 0xB9 || c.toNat = 0xB2 || c.toNat = 0xB3
    || c.toNat = 0xBC || c.toNat = 0xBD || c.toNat = 0xBE

/-- Python `str.isalnum`: nonempty and every character alphanumeric. -/
def pyIsAlnum (s : String) : Bool :=
  !s.toList.isEmpty && s.toList.all pyCharIsAlnum

/-- The spec's criterion for a custom theme name, following its words: the
name must match the regex `^[A-Za-z0-9]+$` (ASCII letters and digits,
nonempty).  Kept separate from `pyIsAlnum`, which embeds the source. -/
def specThemeNameOk (s : String) : Bool :=
  !s.toList.isEmpty && s.toList.all asciiAlnumChar

/-- A message argument of a raised `ValueError`: either a plain string or,
where the source accidentally adds a trailing comma (design.py lines 79-84
and 136-142), a 1-tuple of a string. -/
inductive ErrPart where
  | s (v : String)
  | tup (v : String)
  deriving DecidableEq

/-- Errors escaping `validate_design_options`: a three-argument
`ValueError(message, location, value)` (the custom-error shape), a
one-argument `ValueError`, the schema validation of the chosen theme model
failing, or the plugin module lacking the conventional class name. -/
inductive DesignError where
  | valueError3 (msg : ErrPart) (loc : String) (val : String)
  | valueError1 (msg : ErrPart)
  | pydanticError
  | attributeError
  deriving DecidableEq

/-- Outcome of `spec.loader.exec_module` on the plugin. -/
inductive PluginLoad where
  | ok
  | syntaxError
  | importError
  deriving DecidableEq

/-- The external world of theme resolution. -/
structure ThemeWorld where
  folderExists : Bool
  fileExists : String → Bool
  initExists : Bool
  pluginLoad : PluginLoad
  hasThemeOptionsAttr : Bool
  themeValidates : Bool

/-- The design argument of the validator. -/
inductive Design where
  | validated (themeName : String)
  | raw (theme : String)

/-- The built-in theme names (design.py lines 198-203). -/
def availableThemes : List String :=
  ["classic", "moderncv", "sb2nov", "engineeringresumes"]

/-- The templates required besides the per-entry-type ones
(design.py lines 95-101). -/
def baseRequiredFiles : List String :=
  ["SectionBeginning.j2.tex", "SectionEnding.j2.tex", "Preamble.j2.tex",
   "Header.j2.tex"]

/-- The full required-file list for the given entry type names
(design.py lines 92-101). -/
def requiredFiles (entryTypeNames : List String) : List String :=
  baseRequiredFiles ++ entryTypeNames.map (fun n => n ++ ".j2.tex")

/-- First required file missing from the custom theme folder
(design.py lines 103-114). -/
def firstMissingFile (files : List String) (exists_ : String → Bool) :
    Option String :=
  match files with
  | [] => none
  | f :: r => if exists_ f then firstMissingFile r exists_ else some f

/-- The theme-name error message (design.py line 68). -/
def themeNameErrorMessage : String :=
  "The custom theme name should only contain letters and digits."

/-- `validate_design_options(design, available_theme_options,
available_entry_type_names)` together with its effect on the process
working directory: the result is paired with the working directory in
effect when the function returns or raises.  The function saves the entry
working directory (design.py line 51) and the only `os.chdir` it performs
is back to that saved value, on the custom-theme success path
(design.py line 161). -/
def validateDesignOptions (design : Design) (world : ThemeWorld)
    (entryTypeNames : List String) (cwd : String) :
    Except DesignError String × String :=
  match design with
  | .validated t => (.ok t, cwd)
  | .raw theme =>
    if theme ∈ availableThemes then
      (if world.themeValidates then .ok theme else .error .pydanticError, cwd)
    else
      let themeName := theme
      if !pyIsAlnum themeName then
        (.error (.valueError3 (.s themeNameErrorMessage) "theme" themeName),
          cwd)
      else if !world.folderExists then
        (.error (.valueError3
          (.tup ("The custom theme folder `" ++ themeName ++ "` does not"
            ++ " exist. It should be in the working directory as the input"
            ++ " file.")) "" themeName), cwd)
      else
        match firstMissingFile (requiredFiles entryTypeNames)
            world.fileExists with
        | some f =>
          (.error (.valueError3
            (.s ("You provided a custom theme, but the file `" ++ f
              ++ "` is not found in the folder `" ++ themeName ++ "`."))
            "" themeName), cwd)
        | none =>
          if world.initExists then
            match world.pluginLoad with
            | .syntaxError =>
              (.error (.valueError1 (.s ("The custom theme " ++ themeName
                ++ "'s __init__.py file has a syntax error. Please fix"
                ++ " it."))), cwd)
            | .importError =>
              (.error (.valueError1 (.tup ("The custom theme " ++ themeName
                ++ "'s __init__.py file has an import error. If you have"
                ++ " copy-pasted RenderCV's built-in themes, make sure to"
                ++ " update the import statements (e.g., \"from . import\""
                ++ " to \"from rendercv.themes import\")."))), cwd)
            | .ok =>
              if !world.hasThemeOptionsAttr then
                (.error .attributeError, cwd)
              else if world.themeValidates then
                (.ok themeName, cwd)  -- os.chdir(original_working_directory)
              else (.error .pydanticError, cwd)
          else
            (.ok themeName, cwd)  -- os.chdir(original_working_directory)

/-! ## Render pipeline orchestration (`run_rendercv_with_printer`) -/

/-- The skip flags of the render-command settings consumed by the
orchestrator. -/
structure RenderSettings where
  dontGeneratePng : Bool
  dontGenerateMarkdown : Bool
  dontGenerateHtml : Bool

/-- The step-count computation performed before the first stage runs
(utilities.py lines 511-519). -/
def numberOfSteps (s : RenderSettings) : Int :=
  let n : Int := 6
  let n := if s.dontGeneratePng then n - 1 else n
  if s.dontGenerateMarkdown then n - 2
  else if s.dontGenerateHtml then n - 1 else n

/-- Observable events of one `run_rendercv_with_printer` invocation that
matter to the working-directory and progress accounting claims. -/
inductive PipelineEvent where
  | startStep (name : String)
  | finishStep
  | chdir (dir : String)
  deriving DecidableEq

/-- The event trace of `run_rendercv_with_printer` (utilities.py lines
486-625), with the external renderer collaborators assumed to succeed and
`validationOk` the outcome of the validate stage.  The single `os.chdir`
(line 544) switches to the input file's directory after validation; no
event ever switches back. -/
def runRendercvTrace (s : RenderSettings) (validationOk : Bool)
    (inputFileDir : String) : List PipelineEvent :=
  [PipelineEvent.startStep "Validating the input file"] ++
    if !validationOk then []
    else
      [PipelineEvent.chdir inputFileDir, .finishStep,
       .startStep "Generating the Typst file", .finishStep,
       .startStep "Rendering the Typst file to a PDF", .finishStep] ++
      (if s.dontGeneratePng then []
       else [.startStep "Rendering PNG files from the PDF", .finishStep]) ++
      (if s.dontGenerateMarkdown then []
       else
        [PipelineEvent.startStep "Generating the Markdown file",
         .finishStep] ++
          if s.dontGenerateHtml then []
          else [.startStep "Rendering the Markdown file to a HTML (for Grammarly)",
                .finishStep])

/-- The working directory after executing a trace from `cwd0`. -/
def finalCwd (cwd0 : String) (trace : List PipelineEvent) : String :=
  trace.foldl
    (fun cwd e =>
      match e with
      | .chdir d => d
      | _ => cwd)
    cwd0

/-! ## Artifact copying (`copy_files`, utilities.py lines 100-121) -/

/-- A filesystem path, pre-split the way `copy_files` consumes it with
`pathlib`: containing directory, stem (name without the final suffix) and
suffix (final `.ext`, possibly empty). -/
structure FPath where
  dir : String
  stem : String
  suffix : String
  deriving DecidableEq

/-- The destination paths `copy_files(paths, new_path)` writes to, in
artifact order: a single artifact goes to `new_path` itself; several
artifacts go to `new_path`'s directory under
`f"{new_path.stem}_{i+1}.png"` (the suffix is the hard-coded `.png`,
utilities.py line 119). -/
def copyFilesDests (paths : List FPath) (newPath : FPath) : List FPath :=
  if paths.length == 1 then [newPath]
  else
    (List.range paths.length).map (fun i =>
      ⟨newPath.dir, newPath.stem ++ "_" ++ toString (i + 1), ".png"⟩)

/-! ## Override-argument parsing
(`parse_render_command_override_arguments`, utilities.py lines 354-394) -/

/-- Python dict assignment for string values (same update semantics as
`dictSet`). -/
def dictSetS (m : List (String × String)) (k v : String) :
    List (String × String) :=
  match m with
  | [] => [(k, v)]
  | (k', v') :: r =>
    if k' = k then (k, v) :: r else (k', v') :: dictSetS r k v

/-- The loop of `parse_render_command_override_arguments`: consume the
boundary tokens two at a time, check the `--` prefix, and build the key by
`key.replace("--", "")`. -/
def parseOverridesGo (args : List String) (acc : List (String × String)) :
    Except String (List (String × String)) :=
  match args with
  | [] => .ok acc
  | k :: v :: rest =>
    if !pyStartsWith k "--" then
      .error ("The key (" ++ k ++ ") should start with double dashes!")
    else
      parseOverridesGo rest (dictSetS acc (pyReplace k "--" "") v)
  | [_] => .error "unreachable for even-length argument lists"

/-- `parse_render_command_override_arguments(extra_arguments)`: an odd
token count is a fatal input error; otherwise parse the key/value pairs. -/
def parseRenderCommandOverrideArguments (args : List String) :
    Except String (List (String × String)) :=
  if args.length % 2 ≠ 0 then
    .error ("There is a problem with the extra arguments! Each key should"
      ++ " have a corresponding value.")
  else parseOverridesGo args []

/-- The key/value dictionary as the claim describes it: even-indexed tokens
with every occurrence of `--` deleted become the keys of the following
values. -/
def overridePairsSpec : List String → List (String × String) →
    List (String × String)
  | [], acc => acc
  | k :: v :: rest, acc => overridePairsSpec rest (dictSetS acc (pyReplace k "--" "") v)
  | [_], acc => acc

/-- Python `eval` never invoked: every override value in the theorems below
is a plain (non-brace, non-bracket) string. -/
def evalNone : String → Option Val := fun _ => none

/-- A world in which the custom theme folder and every required file exist
and no `__init__.py` plugin is present. -/
def worldAllGood : ThemeWorld :=
  ⟨true, fun _ => true, false, .ok, true, true⟩

/-! ## Helper lemmas -/

theorem list_getD_set_self {α : Type} (xs : List α) (j : Nat) (a d : α)
    (h : j < xs.length) : (xs.set j a).getD j d = a := by
  induction xs generalizing j with
  | nil => simp at h
  | cons x r ih =>
    cases j with
    | zero => rfl
    | succ j' => exact ih j' (by simpa using h)

theorem list_set_getD_self {α : Type} (xs : List α) (j : Nat) (d : α)
    (h : j < xs.length) : xs.set j (xs.getD j d) = xs := by
  induction xs generalizing j with
  | nil => simp at h
  | cons x r ih =>
    cases j with
    | zero => rfl
    | succ j' => simpa using ih j' (by simpa using h)

theorem dictSet_of_lookup_self (m : List (String × Val)) (k : String)
    (v : Val) (h : dictLookup m k = some v) : dictSet m k v = m := by
  induction m with
  | nil => simp [dictLookup] at h
  | cons kv r ih =>
    match kv with
    | (k', v') =>
      by_cases hk : k' = k
      · subst hk
        simp [dictLookup] at h
        simp [dictSet, h]
      · simp [dictLookup, hk] at h
        simp [dictSet, hk, ih h]

theorem dictLookup_dictSet (m : List (String × Val)) (k : String) (v : Val) :
    dictLookup (dictSet m k v) k = some v := by
  induction m with
  | nil => simp [dictSet, dictLookup]
  | cons kv r ih =>
    match kv with
    | (k', v') =>
      by_cases hk : k' = k
      · subst hk
        simp [dictSet, dictLookup]
      · simp [dictSet, hk, dictLookup, ih]

theorem dictSet_dictSet (m : List (String × Val)) (k : String) (a b : Val) :
    dictSet (dictSet m k a) k b = dictSet m k b := by
  induction m with
  | nil => simp [dictSet]
  | cons kv r ih =>
    match kv with
    | (k', v') =>
      by_cases hk : k' = k
      · subst hk
        simp [dictSet]
      · simp [dictSet, hk, ih]

theorem dictSet_preserves_keys (m : List (String × Val)) (k k' : String)
    (v : Val) (h : dictLookup m k' ≠ none) :
    dictLookup (dictSet m k v) k' ≠ none := by
  induction m with
  | nil => simp [dictLookup] at h
  | cons kv r ih =>
    match kv with
    | (k0, v0) =>
      by_cases hk : k0 = k
      · subst hk
        by_cases hk' : k0 = k'
        · subst hk'
          simp [dictSet, dictLookup]
        · simp [dictLookup, hk'] at h
          simp [dictSet, dictLookup, hk', h]
      · by_cases hk' : k0 = k'
        · subst hk'
          simp [dictSet, hk, dictLookup]
        · simp [dictLookup, hk'] at h
          simp [dictSet, hk, dictLookup, hk', ih h]

/-! ## Claim theorems -/

/-- C1: for every combination of the three skip flags, the step count the
orchestrator computes before the first stage equals 6, minus 1 if PNG is
disabled, minus 2 if Markdown is disabled, minus 1 if Markdown is enabled
but HTML is disabled. -/
theorem c1_step_count (s : RenderSettings) :
    numberOfSteps s =
      6 - (if s.dontGeneratePng then 1 else 0)
        - (if s.dontGenerateMarkdown then 2 else 0)
        - (if !s.dontGenerateMarkdown && s.dontGenerateHtml then 1 else 0) := by
  rcases s with ⟨png, md, html⟩
  cases png <;> cases md <;> cases html <;> rfl

/-- C2: contrary to the claim, `parse_validation_errors` can raise: a
failure whose location has a segment containing two distinct internal
markers (here `list[int]`, containing both `list` and `int`) makes the
cleaning loop call `list.remove` for a value it already removed, which
raises `ValueError`. -/
theorem c2_parse_validation_errors_raises :
    parseValidationErrors [⟨["list[int]"], "m", .pstr "x", none⟩] = none :=
  rfl

/-- C6: contrary to the claim, a whole-word occurrence of a configured
keyword can stay unbolded: with keywords `["x", "y"]` on `{"a": "x"}` the
second keyword's round re-reads the original string value and overwrites
the first round's substitution, so the output leaves `"x"` unbolded. -/
theorem c6_bold_keywords_lost :
    makeGivenKeywordsBoldInADictionary [("a", .vstr "x")] ["x", "y"]
      = [("a", Val.vstr "x")] ∧ "x" ≠ "**x**" :=
  ⟨rfl, by decide⟩

/-- C9: contrary to the claim, the disambiguated destinations do not keep
the caller's file suffix: with two artifacts and the destination `cv.jpg`,
`copy_files` writes `cv_1.png` and `cv_2.png` — the suffix is the
hard-coded `.png`, not the destination's `.jpg`. -/
theorem c9_counterexample :
    copyFilesDests [⟨"o", "p1", ".pdf"⟩, ⟨"o", "p2", ".pdf"⟩]
        ⟨"d", "cv", ".jpg"⟩
      = [⟨"d", "cv_1", ".png"⟩, ⟨"d", "cv_2", ".png"⟩]
    ∧ (FPath.mk "d" "cv_1" ".png").suffix ≠ (FPath.mk "d" "cv" ".jpg").suffix :=
  ⟨rfl, by decide⟩

/-- C9 (amended): when a stage produces more than one artifact for a single
configured destination, the i-th artifact is copied to the destination's
directory under the destination's stem with `_i` (1-based) appended and the
suffix replaced by the hard-coded `.png`, whatever the destination's
original suffix was. -/
theorem c9_multi_artifact_destinations (paths : List FPath) (newPath : FPath)
    (h : 1 < paths.length) :
    ∀ i, i < paths.length →
      (copyFilesDests paths newPath)[i]? =
        some ⟨newPath.dir, newPath.stem ++ "_" ++ toString (i + 1), ".png"⟩ := by
  intro i hi
  unfold copyFilesDests
  rw [if_neg (by simp; omega)]
  simp [List.getElem?_map, List.getElem?_range hi]

/-- C9 witness: the amended statement at a concrete two-artifact call. -/
theorem c9_witness :
    (copyFilesDests [⟨"o", "a", ".png"⟩, ⟨"o", "b", ".png"⟩]
        ⟨"dest", "page", ".png"⟩)[0]?
      = some ⟨"dest", "page_1", ".png"⟩ :=
  c9_multi_artifact_destinations _ _ (by decide) 0 (by decide)

theorem parseOverridesGo_spec :
    ∀ (args : List String) (acc : List (String × String)),
      args.length % 2 = 0 →
      (∀ i, i < args.length → i % 2 = 0 →
        pyStartsWith (args.getD i "") "--" = true) →
      parseOverridesGo args acc = .ok (overridePairsSpec args acc)
  | [], _, _, _ => rfl
  | [_], _, he, _ => by simp at he
  | k :: v :: rest, acc, he, hdd => by
    have hk : pyStartsWith k "--" = true := hdd 0 (by simp) rfl
    show parseOverridesGo (k :: v :: rest) acc = _
    unfold parseOverridesGo
    rw [if_neg (by simp [hk])]
    exact parseOverridesGo_spec rest _
      (by simp only [List.length_cons] at he; omega)
      (fun i hi hev => by
        have := hdd (i + 2) (by simpa using Nat.add_lt_add_right hi 2)
          (by omega)
        simpa [List.getD_cons_succ] using this)

/-- C10: for every even-length boundary token list whose even-indexed
tokens start with `--`, the parser builds the dotted-path key of each pair
by deleting every occurrence of the substring `--` from the token — not
only the leading prefix — so interior `--` runs silently alter the
addressed path. -/
theorem c10_override_key_building (args : List String)
    (heven : args.length % 2 = 0)
    (hdd : ∀ i, i < args.length → i % 2 = 0 →
      pyStartsWith (args.getD i "") "--" = true) :
    parseRenderCommandOverrideArguments args
      = .ok (overridePairsSpec args []) := by
  unfold parseRenderCommandOverrideArguments
  rw [if_neg (by simp [heven])]
  exact parseOverridesGo_spec args [] heven hdd

/-- C10 witness: `--a--b` yields the key `ab`: both the leading and the
interior `--` are deleted. -/
theorem c10_witness :
    parseRenderCommandOverrideArguments ["--a--b", "v"]
      = .ok [("ab", "v")] :=
  (c10_override_key_building ["--a--b", "v"] (by decide)
    (by decide)).trans (by rfl)

theorem buildDiag_end_date (e : ErrB)
    (h : strContains (buildDiag e).loc "end_date" = true) :
    (buildDiag e).msg = endDateMessage := by
  rcases hc : diagAfterCustom e with ⟨m1, loc, i1⟩
  simp only [buildDiag, hc] at h ⊢
  simp only [h, if_true]

theorem foldDedup_prop (P : Diag → Prop) (hP : ∀ e : ErrB, P (buildDiag e)) :
    ∀ (es : List ErrB) (acc : List Diag), (∀ d ∈ acc, P d) →
      ∀ d ∈ es.foldl (fun a e => dedupAppend a (buildDiag e)) acc, P d := by
  intro es
  induction es with
  | nil => intro acc hacc d hd; exact hacc d hd
  | cons e es ih =>
    intro acc hacc d hd
    refine ih (dedupAppend acc (buildDiag e)) ?_ d hd
    intro d' hd'
    unfold dedupAppend at hd'
    split at hd'
    · exact hacc d' hd'
    · rcases List.mem_append.mp hd' with h1 | h2
      · exact hacc d' h1
      · rcases List.mem_singleton.mp h2 with rfl
        exact hP e

theorem foldDedup_nodup :
    ∀ (es : List ErrB) (acc : List Diag), acc.Nodup →
      (es.foldl (fun a e => dedupAppend a (buildDiag e)) acc).Nodup := by
  intro es
  induction es with
  | nil => intro acc hacc; exact hacc
  | cons e es ih =>
    intro acc hacc
    simp only [List.foldl_cons]
    refine ih (dedupAppend acc (buildDiag e)) ?_
    unfold dedupAppend
    split
    · exact hacc
    · rename_i hmem
      simp [List.nodup_append, hacc, hmem]

/-- C3: contrary to the claim, two raw failures at the same `end_date`
location with different offending inputs stay two diagnostics: both carry
the canonical end-date message, but the dedup key is the whole
(location, message, input) triple, so they do not collapse to one. -/
theorem c3_counterexample :
    parseValidationErrors
        [⟨["end_date"], "m1", .pstr "a", none⟩,
         ⟨["end_date"], "m2", .pstr "b", none⟩]
      = some [⟨"end_date", endDateMessage, "a"⟩,
              ⟨"end_date", endDateMessage, "b"⟩]
    ∧ (([⟨"end_date", endDateMessage, "a"⟩,
         ⟨"end_date", endDateMessage, "b"⟩] : List Diag).filter
          (fun d => strContains d.loc "end_date")).length = 2 :=
  ⟨rfl, by decide⟩

/-- C3 (amended): whenever `parse_validation_errors` returns, every
diagnostic whose location contains `end_date` carries the canonical
end-date message, and the output never contains two identical
(location, message, input) triples — so raw failures sharing an `end_date`
location collapse to a single diagnostic exactly when their stringified
inputs also agree. -/
theorem c3_end_date_diagnostics (errors : List ErrR) (out : List Diag)
    (h : parseValidationErrors errors = some out) :
    (∀ d ∈ out, strContains d.loc "end_date" = true → d.msg = endDateMessage)
    ∧ out.Nodup := by
  unfold parseValidationErrors at h
  rcases ho : cleanAll (flattenErrors errors) with _ | es
  · rw [ho] at h
    simp at h
  · rw [ho] at h
    simp only [Option.map_some', Option.some.injEq] at h
    subst h
    exact ⟨foldDedup_prop _ (fun e he => buildDiag_end_date e he) es []
        (by simp),
      foldDedup_nodup es [] (by simp)⟩

/-- C3 witness: the amended statement at a concrete successful run. -/
theorem c3_witness :
    parseValidationErrors [⟨["work", "end_date"], "bad", .pstr "z", none⟩]
      = some [⟨"work.end_date", endDateMessage, "z"⟩]
    ∧ ((∀ d ∈ ([⟨"work.end_date", endDateMessage, "z"⟩] : List Diag),
          strContains d.loc "end_date" = true → d.msg = endDateMessage)
        ∧ ([⟨"work.end_date", endDateMessage, "z"⟩] : List Diag).Nodup) :=
  ⟨rfl,
   c3_end_date_diagnostics
     [⟨["work", "end_date"], "bad", .pstr "z", none⟩]
     [⟨"work.end_date", endDateMessage, "z"⟩] rfl⟩

theorem pyCharIsAlnum_ascii (c : Char) (h : c.toNat ≤ 127) :
    pyCharIsAlnum c = asciiAlnumChar c := by
  unfold pyCharIsAlnum
  have h1 : ¬ (0xC0 ≤ c.toNat) := by omega
  have h2 : c.toNat ≠ 0xAA := by omega
  have h3 : c.toNat ≠ 0xB5 := by omega
  have h4 : c.toNat ≠ 0xBA := by omega
  have h5 : c.toNat ≠ 0xB9 := by omega
  have h6 : c.toNat ≠ 0xB2 := by omega
  have h7 : c.toNat ≠ 0xB3 := by omega
  have h8 : c.toNat ≠ 0xBC := by omega
  have h9 : c.toNat ≠ 0xBD := by omega
  have h10 : c.toNat ≠ 0xBE := by omega
  simp [h1, h2, h3, h4, h5, h6, h7, h8, h9, h10]

theorem all_pyCharIsAlnum_ascii (l : List Char)
    (h : ∀ c ∈ l, c.toNat ≤ 127) :
    l.all pyCharIsAlnum = l.all asciiAlnumChar := by
  induction l with
  | nil => rfl
  | cons c cs ih =>
    simp only [List.all_cons]
    rw [pyCharIsAlnum_ascii c (h c (List.mem_cons_self c cs)),
      ih (fun c' hc' => h c' (List.mem_cons_of_mem c hc'))]

/-- C4: contrary to the claim, the name filter for a non-built-in theme is
Python's `str.isalnum`, not the regex `^[A-Za-z0-9]+$`: the name `café` is
accepted (here resolving all the way to success) although it does not match
the regex, because `é` is a Unicode alphanumeric. -/
theorem c4_counterexample :
    (validateDesignOptions (.raw "café") worldAllGood [] "/w").1 = .ok "café"
    ∧ specThemeNameOk "café" = false :=
  ⟨rfl, by decide⟩

/-- C4 (amended): for a non-built-in theme value, resolution rejects the
name with the three-part `(message, "theme", theme_name)` error exactly
when the name fails Python's `isalnum` (nonempty, all characters Unicode
alphanumerics); on names made of ASCII characters only, that criterion
coincides with the spec's regex `^[A-Za-z0-9]+$`. -/
theorem c4_custom_theme_name (world : ThemeWorld) (etn : List String)
    (cwd name : String) (hname : name ∉ availableThemes) :
    ((validateDesignOptions (.raw name) world etn cwd).1
        = .error (.valueError3 (.s themeNameErrorMessage) "theme" name)
      ↔ pyIsAlnum name = false)
    ∧ ((∀ c ∈ name.toList, c.toNat ≤ 127) →
        pyIsAlnum name = specThemeNameOk name) := by
  constructor
  · unfold validateDesignOptions
    dsimp only
    rw [if_neg hname]
    cases hpy : pyIsAlnum name with
    | false => simp [hpy]
    | true =>
      simp only [hpy, Bool.not_true, Bool.false_eq_true, if_false]
      constructor
      · intro hcontra
        exfalso
        split at hcontra <;> try simp at hcontra
        all_goals try (split at hcontra <;> try simp at hcontra)
        all_goals try (split at hcontra <;> try simp at hcontra)
        all_goals try (split at hcontra <;> try simp at hcontra)
        all_goals try (split at hcontra <;> try simp at hcontra)
        all_goals try (split at hcontra <;> try simp at hcontra)
      · intro hcontra
        simp at hcontra
  · intro hascii
    unfold pyIsAlnum specThemeNameOk
    rw [all_pyCharIsAlnum_ascii name.toList hascii]

/-- C4 witness: a name with an underscore is rejected with the three-part
error shape. -/
theorem c4_witness :
    (validateDesignOptions (.raw "bad_theme") worldAllGood [] "/w").1
      = .error (.valueError3 (.s themeNameErrorMessage) "theme"
          "bad_theme") :=
  (c4_custom_theme_name worldAllGood [] "/w" "bad_theme"
    (by decide)).1.mpr (by decide)

/-- C5: contrary to the claim, the render pipeline does not restore the
working directory: from `/home/user` on a successful run over an input file
in `/data/input`, the working directory at exit is `/data/input`. -/
theorem c5_counterexample :
    finalCwd "/home/user"
        (runRendercvTrace ⟨false, false, false⟩ true "/data/input")
      = "/data/input"
    ∧ "/data/input" ≠ "/home/user" :=
  ⟨rfl, by decide⟩

/-- C5 (amended): theme resolution leaves the working directory exactly as
it found it on every path (its only `os.chdir` re-targets the directory
saved at entry), while the render pipeline switches to the input file's
directory right after a successful validation and never switches back; if
validation fails the pipeline has not yet changed directory. -/
theorem c5_working_directory :
    (∀ (design : Design) (world : ThemeWorld) (etn : List String)
        (cwd : String),
      (validateDesignOptions design world etn cwd).2 = cwd)
    ∧ (∀ (s : RenderSettings) (inputDir cwd0 : String),
        finalCwd cwd0 (runRendercvTrace s true inputDir) = inputDir)
    ∧ (∀ (s : RenderSettings) (inputDir cwd0 : String),
        finalCwd cwd0 (runRendercvTrace s false inputDir) = cwd0) := by
  refine ⟨?_, ?_, ?_⟩
  · intro design world etn cwd
    unfold validateDesignOptions
    rcases design with t | t
    · rfl
    · dsimp only
      split
      · split <;> rfl
      · split
        · rfl
        · split
          · rfl
          · split
            · rfl
            · split
              · split
                · rfl
                · rfl
                · split
                  · rfl
                  · split <;> rfl
              · rfl
  · intro s inputDir cwd0
    rcases s with ⟨png, md, html⟩
    cases png <;> cases md <;> cases html <;> rfl
  · intro s inputDir cwd0
    rfl

theorem pyIndex_lt {i : Int} {len j : Nat} (h : pyIndex i len = some j) :
    j < len := by
  unfold pyIndex at h
  split at h
  · split at h
    · rename_i h1 h2
      injection h with hj
      omega
    · exact absurd h (by simp)
  · split at h
    · rename_i h1 h2
      injection h with hj
      omega
    · exact absurd h (by simp)

theorem setOrUpdate_err_unchanged (evalFn : String → Option Val) :
    ∀ (rest : List String) (v : Val) (k value : String),
      (setOrUpdate evalFn v k rest value).2 ≠ none →
      (setOrUpdate evalFn v k rest value).1 = v := by
  intro rest
  induction rest with
  | nil =>
    intro v k value h
    simp only [setOrUpdate] at h ⊢
    cases hd : decodeValue evalFn value with
    | error e => simp [hd]
    | ok dv =>
      simp only [hd] at h ⊢
      cases v with
      | vlist xs =>
        cases hti : pyToInt k with
        | none => simp [hti]
        | some i =>
          simp only [hti] at h ⊢
          cases hpi : pyIndex i xs.length with
          | none => simp [hpi]
          | some j =>
            simp only [hpi] at h
            simp at h
      | vdict m => simp at h
      | vstr s => rfl
      | vint n => rfl
      | vbool b => rfl
      | vnone => rfl
  | cons k2 rest ih =>
    intro v k value h
    simp only [setOrUpdate] at h ⊢
    cases v with
    | vlist xs =>
      cases hti : pyToInt k with
      | none => simp [hti]
      | some i =>
        simp only [hti] at h ⊢
        cases hpi : pyIndex i xs.length with
        | none => simp [hpi]
        | some j =>
          simp only [hpi] at h ⊢
          have hsub : (setOrUpdate evalFn (xs.getD j .vnone) k2 rest value).1
              = xs.getD j .vnone :=
            ih (xs.getD j .vnone) k2 value (by simpa using h)
          simp only [hsub, list_set_getD_self xs j Val.vnone (pyIndex_lt hpi)]
    | vdict m =>
      cases hl : dictLookup m k with
      | some sub =>
        simp only [hl] at h ⊢
        have hsub : (setOrUpdate evalFn sub k2 rest value).1 = sub :=
          ih sub k2 value (by simpa using h)
        simp only [hsub, dictSet_of_lookup_self m k sub hl]
      | none =>
        simp only [hl] at h ⊢
        rcases hs : (setOrUpdate evalFn (.vdict []) k2 rest value).2
          with _ | err
        · simp only [hs] at h
          simp at h
        · simp only [hs]
    | vstr s =>
      cases hsc : strContains s k with
      | true => simp [hsc]
      | false =>
        simp only [hsc, Bool.false_eq_true, if_false]
        rcases hs : (setOrUpdate evalFn (.vdict []) k2 rest value).2
          with _ | err
        · simp only [hs]
        · simp only [hs]
    | vint n => rfl
    | vbool b => rfl
    | vnone => rfl

/-- C7: if applying a single override instruction fails for any reason
(malformed segment, out-of-range index, undecodable value, non-container
hit), the tree is left exactly as it was: Python mutates only at the leaf
assignment and at post-recursion attach points, both of which run after
every possible raise, so a failed instruction never leaves stray edits.
Stated for every Python `eval` behaviour `evalFn`. -/
theorem c7_apply_or_reject (evalFn : String → Option Val) (dictionary : Val)
    (key value : String)
    (h : (setOrUpdateAValue evalFn dictionary key value).2 ≠ none) :
    (setOrUpdateAValue evalFn dictionary key value).1 = dictionary := by
  unfold setOrUpdateAValue at h ⊢
  cases hsplit : splitDots key with
  | nil => rfl
  | cons k rest =>
    rw [hsplit] at h
    exact setOrUpdate_err_unchanged evalFn rest dictionary k value h

/-- C7 witness: an out-of-range index aborts the instruction and leaves the
tree untouched. -/
theorem c7_witness :
    (setOrUpdateAValue evalNone
        (Val.vdict [("a", Val.vlist [Val.vint 1])]) "a.5" "x").2 ≠ none
    ∧ (setOrUpdateAValue evalNone
        (Val.vdict [("a", Val.vlist [Val.vint 1])]) "a.5" "x").1
      = Val.vdict [("a", Val.vlist [Val.vint 1])] :=
  ⟨by decide,
   c7_apply_or_reject evalNone (Val.vdict [("a", Val.vlist [Val.vint 1])])
     "a.5" "x" (by decide)⟩

theorem setOrUpdate_idem (evalFn : String → Option Val) :
    ∀ (rest : List String) (k : String) (v : Val) (v1 v2 : String)
      (t1 t2 : Val),
      setOrUpdate evalFn v k rest v1 = (t1, none) →
      setOrUpdate evalFn v k rest v2 = (t2, none) →
      setOrUpdate evalFn t1 k rest v2 = (t2, none) := by
  intro rest
  induction rest with
  | nil =>
    intro k v v1 v2 t1 t2 h1 h2
    simp only [setOrUpdate] at h1 h2 ⊢
    cases hd1 : decodeValue evalFn v1 with
    | error e => simp [hd1] at h1
    | ok d1 =>
      simp only [hd1] at h1
      cases hd2 : decodeValue evalFn v2 with
      | error e => simp [hd2] at h2
      | ok d2 =>
        simp only [hd2] at h2 ⊢
        cases v with
        | vlist xs =>
          cases hti : pyToInt k with
          | none => simp [hti] at h1
          | some i =>
            simp only [hti] at h1 h2
            cases hpi : pyIndex i xs.length with
            | none => simp [hpi] at h1
            | some j =>
              simp only [hpi] at h1 h2
              simp only [Prod.mk.injEq] at h1 h2
              obtain ⟨ht1, -⟩ := h1
              obtain ⟨ht2, -⟩ := h2
              subst ht1
              subst ht2
              have hlen : pyIndex i (xs.set j d1).length = some j := by
                rw [List.length_set]
                exact hpi
              simp only [hti, hlen, List.set_set, Prod.mk.injEq, and_self]
        | vdict m =>
          simp only [Prod.mk.injEq] at h1 h2
          obtain ⟨ht1, -⟩ := h1
          obtain ⟨ht2, -⟩ := h2
          subst ht1
          subst ht2
          simp only [dictSet_dictSet, Prod.mk.injEq, and_self]
        | vstr s => simp at h1
        | vint n => simp at h1
        | vbool b => simp at h1
        | vnone => simp at h1
  | cons k2 rest ih =>
    intro k v v1 v2 t1 t2 h1 h2
    simp only [setOrUpdate] at h1 h2 ⊢
    cases v with
    | vlist xs =>
      cases hti : pyToInt k with
      | none => simp [hti] at h1
      | some i =>
        simp only [hti] at h1 h2
        cases hpi : pyIndex i xs.length with
        | none => simp [hpi] at h1
        | some j =>
          simp only [hpi] at h1 h2
          rcases hs1 : setOrUpdate evalFn (xs.getD j .vnone) k2 rest v1
            with ⟨s1, e1⟩
          simp only [hs1] at h1
          rcases hs2 : setOrUpdate evalFn (xs.getD j .vnone) k2 rest v2
            with ⟨s2, e2⟩
          simp only [hs2] at h2
          simp only [Prod.mk.injEq] at h1 h2
          obtain ⟨ht1, he1⟩ := h1
          obtain ⟨ht2, he2⟩ := h2
          subst he1
          subst he2
          subst ht1
          subst ht2
          have hrec := ih k2 (xs.getD j .vnone) v1 v2 s1 s2 hs1 hs2
          have hlen : pyIndex i (xs.set j s1).length = some j := by
            rw [List.length_set]
            exact hpi
          simp only [hti, hlen,
            list_getD_set_self xs j s1 Val.vnone (pyIndex_lt hpi), hrec,
            List.set_set, Prod.mk.injEq, and_self]
    | vdict m =>
      cases hl : dictLookup m k with
      | some sub =>
        simp only [hl] at h1 h2
        rcases hs1 : setOrUpdate evalFn sub k2 rest v1 with ⟨s1, e1⟩
        simp only [hs1] at h1
        rcases hs2 : setOrUpdate evalFn sub k2 rest v2 with ⟨s2, e2⟩
        simp only [hs2] at h2
        simp only [Prod.mk.injEq] at h1 h2
        obtain ⟨ht1, he1⟩ := h1
        obtain ⟨ht2, he2⟩ := h2
        subst he1
        subst he2
        subst ht1
        subst ht2
        have hrec := ih k2 sub v1 v2 s1 s2 hs1 hs2
        simp only [dictLookup_dictSet, hrec, dictSet_dictSet,
          Prod.mk.injEq, and_self]
      | none =>
        simp only [hl] at h1 h2
        rcases hs1 : setOrUpdate evalFn (.vdict []) k2 rest v1 with ⟨s1, e1⟩
        simp only [hs1] at h1
        rcases hs2 : setOrUpdate evalFn (.vdict []) k2 rest v2 with ⟨s2, e2⟩
        simp only [hs2] at h2
        cases e1 with
        | some err => simp at h1
        | none =>
          cases e2 with
          | some err => simp at h2
          | none =>
            simp only [Prod.mk.injEq] at h1 h2
            obtain ⟨ht1, -⟩ := h1
            obtain ⟨ht2, -⟩ := h2
            subst ht1
            subst ht2
            have hrec := ih k2 (.vdict []) v1 v2 s1 s2 hs1 hs2
            simp only [dictLookup_dictSet, hrec, dictSet_dictSet,
              Prod.mk.injEq, and_self]
    | vstr s =>
      cases hsc : strContains s k with
      | true => simp [hsc] at h1
      | false =>
        simp only [hsc, Bool.false_eq_true, if_false] at h1
        rcases hs1 : (setOrUpdate evalFn (.vdict []) k2 rest v1).2
          with _ | err
        · simp only [hs1] at h1
          simp at h1
        · simp only [hs1] at h1
          simp at h1
    | vint n => simp at h1
    | vbool b => simp at h1
    | vnone => simp at h1

theorem setOrUpdate_dict_keys (evalFn : String → Option Val)
    (m : List (String × Val)) (k : String) (rest : List String)
    (value : String) (k' : String) (h : dictLookup m k' ≠ none) :
    ∃ m', (setOrUpdate evalFn (.vdict m) k rest value).1 = .vdict m'
      ∧ dictLookup m' k' ≠ none := by
  cases rest with
  | nil =>
    simp only [setOrUpdate]
    cases hd : decodeValue evalFn value with
    | error e => exact ⟨m, rfl, h⟩
    | ok dv =>
      exact ⟨dictSet m k dv, rfl, dictSet_preserves_keys m k k' dv h⟩
  | cons k2 rest =>
    simp only [setOrUpdate]
    cases hl : dictLookup m k with
    | some sub =>
      exact ⟨dictSet m k (setOrUpdate evalFn sub k2 rest value).1, rfl,
        dictSet_preserves_keys m k k' _ h⟩
    | none =>
      rcases hs : (setOrUpdate evalFn (.vdict []) k2 rest value).2
        with _ | err
      · exact ⟨dictSet m k (setOrUpdate evalFn (.vdict []) k2 rest value).1,
          rfl, dictSet_preserves_keys m k k' _ h⟩
      · exact ⟨m, rfl, h⟩

/-- C8: applying an override `(p, v2)` on top of `(p, v1)` gives exactly
what `(p, v2)` alone gives (idempotent overwrite), for any Python `eval`
behaviour; and applying an override never removes an existing top-level
sibling key (the same dict-update argument applies at every level of the
chain). -/
theorem c8_idempotent_overwrite :
    (∀ (evalFn : String → Option Val) (v : Val) (key v1 v2 : String)
        (t1 t2 : Val),
      setOrUpdateAValue evalFn v key v1 = (t1, none) →
      setOrUpdateAValue evalFn v key v2 = (t2, none) →
      setOrUpdateAValue evalFn t1 key v2 = (t2, none))
    ∧ (∀ (evalFn : String → Option Val) (m : List (String × Val))
        (key value k' : String),
      dictLookup m k' ≠ none →
      ∃ m', (setOrUpdateAValue evalFn (.vdict m) key value).1 = .vdict m'
        ∧ dictLookup m' k' ≠ none) := by
  constructor
  · intro evalFn v key v1 v2 t1 t2 h1 h2
    unfold setOrUpdateAValue at h1 h2 ⊢
    cases hsplit : splitDots key with
    | nil =>
      rw [hsplit] at h1 h2
      simp only [Prod.mk.injEq] at h1 h2
      obtain ⟨ht1, -⟩ := h1
      obtain ⟨ht2, -⟩ := h2
      subst ht1
      subst ht2
      rfl
    | cons k rest =>
      rw [hsplit] at h1 h2
      exact setOrUpdate_idem evalFn rest k v v1 v2 t1 t2 h1 h2
  · intro evalFn m key value k' h
    unfold setOrUpdateAValue
    cases hsplit : splitDots key with
    | nil => exact ⟨m, rfl, h⟩
    | cons k rest => exact setOrUpdate_dict_keys evalFn m k rest value k' h

/-- C8 witness: both parts at concrete inputs: overwriting `a.b` twice, and
a sibling key `z` surviving an override of `a`. -/
theorem c8_witness :
    setOrUpdateAValue evalNone
        (Val.vdict [("a", Val.vdict [("b", Val.vstr "1")])]) "a.b" "2"
      = (Val.vdict [("a", Val.vdict [("b", Val.vstr "2")])], none)
    ∧ ∃ m', (setOrUpdateAValue evalNone (Val.vdict [("z", Val.vint 9)])
          "a" "w").1 = Val.vdict m'
        ∧ dictLookup m' "z" ≠ none :=
  ⟨c8_idempotent_overwrite.1 evalNone (Val.vdict []) "a.b" "1" "2"
      (Val.vdict [("a", Val.vdict [("b", Val.vstr "1")])])
      (Val.vdict [("a", Val.vdict [("b", Val.vstr "2")])]) rfl rfl,
   c8_idempotent_overwrite.2 evalNone [("z", Val.vint 9)] "a" "w" "z"
     (by simp [dictLookup])⟩

end RenderCV
